import Mathlib

/-!
A shallow embedding of the `sentry_multi_client` package (multi-sentry
eth/66 message router) of the erigon repository, together with proofs
about its inbound-message handlers.

Modelling conventions:

* Each Go handler becomes a pure Lean function from an environment
  (`Env`), a sentry identifier and an `InboundMessage` to a pair
  `(List Effect × Option Err)`: the ordered list of outbound calls the
  handler performed (sentry RPCs, downloader mutations) and the error it
  returned, mirroring the Go control flow statement by statement.
* External collaborators that the spec declares out of scope (the
  header/body download engines, the chain store, the RLP codec, the
  keccak hash, the random generator, the sentry gRPC surface) are
  oracles: function-valued fields of `Env`.  Their results are arbitrary;
  the theorems quantify over all environments.
* RLP *decoding* is an oracle per packet shape; RLP *encoding* of the
  fixed outbound packet shapes is modelled by the structured payload
  itself (`OutMsg`), since the reflection-based encoder cannot fail on
  these concrete types.  The streaming second pass over the raw message
  bytes is modelled by `BHStream`/`NBStream`: the results of the
  successive `List`/`Uint`/`Raw` calls, as functions of the message data.
* Go `uint64` narrowing of big integers (`Number.Uint64()`) is `% 2^64`.
* The `recover`-based panic barrier of `HandleInboundMessage` is not
  modelled: Lean functions are total.  Failure of best-effort RPCs
  (`PenalizePeer`, `PeerMinBlock`) is modelled by acknowledgement
  oracles whose results are read and discarded, exactly as the Go code
  only logs them.
-/

namespace SentryMulti

/-- Byte strings are lists of naturals. -/
abbrev Bytes := List Nat

/-- 2^64, the modulus of Go `uint64` values. -/
def u64Mod : Nat := 2 ^ 64

/-- A handler error.  `invalidRLP` models the result of
`rlp.IsInvalidRLPError` on the error (a property of the error value that
survives `fmt.Errorf("...: %w", err)` wrapping). -/
structure Err where
  invalidRLP : Bool
  msg : String
  deriving DecidableEq

/-- Wrapping by `fmt.Errorf("<prefix>%w", err)`: prefixes the message and
preserves the invalid-RLP classification. -/
def wrapErr (prefixMsg : String) (e : Err) : Err :=
  ⟨e.invalidRLP, prefixMsg ++ e.msg⟩

/-- An error returned by a sentry RPC.  `peerNotFound` records whether the
error is a p2p "peer not found" error. -/
structure SendErr where
  peerNotFound : Bool
  msg : String
  deriving DecidableEq

/-- Modelled from the spec: `isPeerNotFoundErr` (defined elsewhere in the
`sentry_multi_client` package) recognizes "peer not found" sentry errors
uniformly. -/
def isPeerNotFoundErr (e : SendErr) : Bool := e.peerNotFound

/-- A sentry RPC error surfacing as a handler error: it is a gRPC
transport error, never an invalid-RLP error. -/
def sendErrToErr (prefixMsg : String) (e : SendErr) : Err :=
  ⟨false, prefixMsg ++ e.msg⟩

/-- A block header.  Only the block number is interpreted by the router;
`extra` stands for all remaining header fields, so that two distinct
headers may share a number. -/
structure Header where
  number : Nat
  extra : Nat
  deriving DecidableEq

/-- A block: its header plus its raw body (opaque). -/
structure Block where
  header : Header
  rawBody : Nat
  deriving DecidableEq

/-- The decoded `NewBlock66` payload: `(block, td)`. -/
structure NewBlockPacket where
  block : Block
  td : Nat
  deriving DecidableEq

/-- One entry of a `NewBlockHashes66` packet: `(hash, number)`. -/
structure Announce where
  hash : Nat
  number : Nat
  deriving DecidableEq

/-- `headerdownload.ChainSegmentHeader`: typed header, verbatim raw RLP
bytes, hash, and block number. -/
structure ChainSegmentHeader where
  header : Header
  headerRaw : Bytes
  hash : Nat
  number : Nat
  deriving DecidableEq

/-- Default segment used only to model the Go `segments[0]` access. -/
def emptySeg : ChainSegmentHeader := ⟨⟨0, 0⟩, [], 0, 0⟩

/-- `headerdownload.Penalty` returned by `SingleHeaderAsSegment`. -/
inductive HdPenalty
  | noPenalty
  | other (n : Nat)
  deriving DecidableEq

/-- `proto_sentry.PenaltyKind`. -/
inductive PenaltyKind
  | kick
  | other (n : Nat)
  deriving DecidableEq

/-- A penalty item returned by the downloader (peer to be penalized). -/
structure PenaltyItem where
  peerId : Nat
  deriving DecidableEq

/-- `eth.HashOrNumber`: origin of a `GetBlockHeaders` query. -/
inductive HashOrNumber
  | hash (h : Nat)
  | number (n : Nat)
  deriving DecidableEq

/-- The inner `GetBlockHeaders` query. -/
structure GetBlockHeadersQuery where
  origin : HashOrNumber
  amount : Nat
  skip : Nat
  reverse : Bool
  deriving DecidableEq

/-- `eth.GetBlockHeadersPacket66`: request id plus query. -/
structure GetBlockHeadersPacket66 where
  requestId : Nat
  query : GetBlockHeadersQuery
  deriving DecidableEq

/-- A structured outbound message (the payload that is RLP-encoded and
sent with the corresponding wire tag). -/
inductive OutMsg
  | getBlockHeaders66 (requestId : Nat) (origin : HashOrNumber)
      (amount : Nat) (skip : Nat) (reverse : Bool)
  | blockHeaders66 (requestId : Nat) (headers : List Header)
  | blockBodies66 (requestId : Nat) (bodies : List Bytes)
  | receipts66 (requestId : Nat) (receipts : List Bytes)
  deriving DecidableEq

/-- Every outbound call a handler performs, in program order: sentry RPCs
and mutations of the header/body download engines. -/
inductive Effect
  | saveExternalAnnounce (h : Nat)
  | sendMessageById (sentryId : Nat) (peerId : Nat) (msg : OutMsg)
  | processHeaders (segs : List ChainSegmentHeader) (newBlock : Bool) (peerId : Nat)
  | processHeadersPOS (segs : List ChainSegmentHeader) (peerId : Nat)
  | penalize (sentryId : Nat) (peerId : Nat) (kind : PenaltyKind)
  | peerMinBlock (sentryId : Nat) (peerId : Nat) (minBlock : Nat)
  | propagateNewBlockHashes (anns : List (Nat × Nat))
  | sendHeaderRequest (req : Nat)
  | updateStats (req : Nat) (peer : Nat)
  | updateRetryTime (req : Nat) (timeoutSecs : Nat)
  | addToPrefetch (hdr : Header) (rawBody : Nat)
  | deliverBodies (txs : List Nat) (uncles : List Nat) (withdrawals : List Nat)
      (size : Nat) (peerId : Nat)
  deriving DecidableEq

/-- The eth/66 wire tags dispatched by `handleInboundMessage`
(`proto_sentry.MessageId`); `OTHER` covers every other tag. -/
inductive MessageId
  | NEW_BLOCK_HASHES_66
  | BLOCK_HEADERS_66
  | NEW_BLOCK_66
  | BLOCK_BODIES_66
  | GET_BLOCK_HEADERS_66
  | GET_BLOCK_BODIES_66
  | RECEIPTS_66
  | GET_RECEIPTS_66
  | OTHER (n : Nat)
  deriving DecidableEq

/-- `proto_sentry.InboundMessage`: peer id, wire tag, payload bytes. -/
structure InboundMessage where
  peerId : Nat
  id : MessageId
  data : Bytes
  deriving DecidableEq

/-- The streaming second pass over `BlockHeaders66` bytes: results of the
outer `List()`, the request-id `Uint()`, the header-list `List()`, and of
the i-th `Raw()` call, all as functions of the original message data. -/
structure BHStream where
  enterOuter : Except Err Unit
  readReqId : Except Err Nat
  enterHeaders : Except Err Unit
  raw : Nat → Except Err Bytes

/-- The streaming pass over `NewBlock66` bytes: the two `List()` calls and
the header `Raw()` call. -/
structure NBStream where
  enter1 : Except Err Unit
  enter2 : Except Err Unit
  headerRaw : Except Err Bytes

/-- The `MultiClient` configuration plus all external collaborators
(downloader, store, RLP codec, hash, randomness, sentry RPC results),
as oracles.  Handlers are deterministic given an `Env`. -/
structure Env where
  disableBlockDownload : Bool
  isMock : Bool
  ttdPassed : Bool
  sentries : List Nat
  sentrySkipNotReady : Nat → Bool
  hdInitialCycle : Bool
  hdFetchingNew : Bool
  hdPOSSync : Bool
  hdHasLink : Nat → Bool
  hdFirstPoSHeight : Option Nat
  hdProcessHeaders : List ChainSegmentHeader → Bool → Nat → Bool
  hdProcessHeadersPOS : List ChainSegmentHeader → Nat → Except Err (List PenaltyItem)
  hdRequestMoreHeaders : Option Nat × List PenaltyItem
  hdSingleHeaderAsSegment : Bytes → Header → Except Err (List ChainSegmentHeader × HdPenalty)
  sendHeaderRequestResult : Nat → Nat × Bool
  beginTemporalRo : Except Err Unit
  beginRo : Except Err Unit
  dbViewAnswerGetBlockHeaders : GetBlockHeadersQuery → Except Err (List Header)
  answerGetBlockBodies : List Nat → List Bytes
  answerGetReceiptsCacheOnly : List Nat → Except Err (Option (List Bytes) × Bool)
  acquireReceiptsSemaphore : Except Err Unit
  answerGetReceipts : List Nat → Option (List Bytes) → Except Err (List Bytes)
  decodeNewBlockHashes : Bytes → Except Err (List Announce)
  decodeBlockHeaders66 : Bytes → Except Err (Nat × List Header)
  bhStream : Bytes → BHStream
  decodeNewBlockPacket : Bytes → Except Err NewBlockPacket
  nbStream : Bytes → NBStream
  sanityCheck : NewBlockPacket → Except Err Unit
  hashCheck : NewBlockPacket → Except Err Unit
  decodeBlockRawBodies66 : Bytes → Except Err (List Nat × List Nat × List Nat)
  decodeGetBlockHeaders66 : Bytes → Except Err GetBlockHeadersPacket66
  decodeGetBlockBodies66 : Bytes → Except Err (Nat × List Nat)
  decodeGetReceipts66 : Bytes → Except Err (Nat × List Nat)
  rawRlpHash : Bytes → Nat
  rand : Nat → Nat
  sendMessageById : Nat → Nat → OutMsg → Option SendErr
  penalizePeerAck : Nat → Nat → Option SendErr
  peerMinBlockAck : Nat → Nat → Nat → Option SendErr

/-- Modelled from the spec: `cs.Penalize` (broadcast.go, outside this
source set) forwards each downloader penalty to every sentry as a `Kick`. -/
def Penalize (env : Env) (penalties : List PenaltyItem) : List Effect :=
  penalties.flatMap fun p => env.sentries.map fun i => Effect.penalize i p.peerId PenaltyKind.kick

/-- Modelled from the spec: `headerdownload.HeadersSort` sorts chain
segment headers by order of block heights (ascending). -/
def HeadersSort (l : List ChainSegmentHeader) : List ChainSegmentHeader :=
  l.insertionSort fun a b => a.number ≤ b.number

/-- Modelled from the spec: `headerdownload.HeadersReverseSort` sorts
chain segment headers by reverse order of block heights (descending). -/
def HeadersReverseSort (l : List ChainSegmentHeader) : List ChainSegmentHeader :=
  l.insertionSort fun a b => b.number ≤ a.number

/-- The `newBlockHashes66` announce loop: for each announce, record it,
skip if the downloader has a link, otherwise build and send a single
header request (random request id, amount 1, skip 0, not reverse);
"peer not found" send failures are skipped, other failures abort. -/
def nbhLoop (env : Env) (s : Nat) (peer : Nat) :
    List Announce → Nat → List Effect → List Effect × Option Err
  | [], _, acc => (acc, none)
  | a :: rest, k, acc =>
    let acc1 := acc ++ [Effect.saveExternalAnnounce a.hash]
    if env.hdHasLink a.hash then
      nbhLoop env s peer rest k acc1
    else
      let m := OutMsg.getBlockHeaders66 (env.rand k % u64Mod) (HashOrNumber.hash a.hash) 1 0 false
      let acc2 := acc1 ++ [Effect.sendMessageById s peer m]
      match env.sendMessageById s peer m with
      | none => nbhLoop env s peer rest (k + 1) acc2
      | some e =>
        if isPeerNotFoundErr e then nbhLoop env s peer rest (k + 1) acc2
        else (acc2, some (sendErrToErr "send header request: " e))

/-- Handler for `NewBlockHashes66`. -/
def newBlockHashes66 (env : Env) (s : Nat) (req : InboundMessage) :
    List Effect × Option Err :=
  if env.disableBlockDownload then ([], none)
  else if env.hdInitialCycle && !env.hdFetchingNew then ([], none)
  else
    match env.decodeNewBlockHashes req.data with
    | .error e => ([], some (wrapErr "decode NewBlockHashes66: " e))
    | .ok request => nbhLoop env s req.peerId request 0 []

/-- The raw-header extraction loop of `blockHeaders`: for the i-th typed
header, the i-th `Raw()` slice is captured verbatim and the segment hash
is the keccak (`types.RawRlpHash`) of exactly those bytes. -/
def mkCsHeaders (env : Env) (raw : Nat → Except Err Bytes) :
    List Header → Nat → Except Err (List ChainSegmentHeader)
  | [], _ => .ok []
  | h :: rest, i =>
    match raw i with
    | .error e => .error (wrapErr "decode 3 BlockHeadersPacket66: " e)
    | .ok hRaw =>
      match mkCsHeaders env raw rest (i + 1) with
      | .error e => .error e
      | .ok tl => .ok (⟨h, hRaw, env.rawRlpHash hRaw, h.number % u64Mod⟩ :: tl)

/-- The running maximum of the (uint64-narrowed) block numbers of a
packet, as computed by the `highestBlock` accumulator. -/
def highestBlockOf (pkt : List Header) : Nat :=
  (pkt.map fun h => h.number % u64Mod).foldl max 0

/-- The post-merge branch of `blockHeaders`: sort descending, open a
temporal read transaction, run `ProcessHeadersPOS`, forward penalties. -/
def blockHeadersPos (env : Env) (csHeaders : List ChainSegmentHeader) (peerID : Nat) :
    List Effect × Option Err :=
  let sorted := HeadersReverseSort csHeaders
  match env.beginTemporalRo with
  | .error e => ([], some e)
  | .ok _ =>
    match env.hdProcessHeadersPOS sorted peerID with
    | .error e => ([Effect.processHeadersPOS sorted peerID], some e)
    | .ok penalties =>
      if penalties.length > 0 then
        ([Effect.processHeadersPOS sorted peerID] ++ Penalize env penalties, none)
      else ([Effect.processHeadersPOS sorted peerID], none)

/-- The pre-merge branch of `blockHeaders`: sort ascending, run
`ProcessHeaders`, possibly request more headers and forward penalties. -/
def blockHeadersPow (env : Env) (csHeaders : List ChainSegmentHeader) (peerID : Nat) :
    List Effect :=
  let sorted := HeadersSort csHeaders
  let canRequestMore := env.hdProcessHeaders sorted false peerID
  let base := [Effect.processHeaders sorted false peerID]
  if canRequestMore then
    let reqEffs :=
      match env.hdRequestMoreHeaders.1 with
      | none => []
      | some req =>
        let pr := env.sendHeaderRequestResult req
        [Effect.sendHeaderRequest req] ++
          (if pr.2 then [Effect.updateStats req pr.1, Effect.updateRetryTime req 5] else [])
    let penalties := env.hdRequestMoreHeaders.2
    base ++ reqEffs ++ (if penalties.length > 0 then Penalize env penalties else [])
  else base

/-- `blockHeaders`: build the chain segments from the typed headers and
the raw stream, branch on sync mode, then report the peer's min block. -/
def blockHeaders (env : Env) (s : Nat) (pkt : List Header) (st : BHStream)
    (peerID : Nat) : List Effect × Option Err :=
  if env.disableBlockDownload then ([], none)
  else if pkt.length == 0 then ([], none)
  else
    match st.enterHeaders with
    | .error e => ([], some (wrapErr "decode 2 BlockHeadersPacket66: " e))
    | .ok _ =>
      match mkCsHeaders env st.raw pkt 0 with
      | .error e => ([], some e)
      | .ok csHeaders =>
        let highestBlock := highestBlockOf pkt
        let branch :=
          if env.hdPOSSync then blockHeadersPos env csHeaders peerID
          else (blockHeadersPow env csHeaders peerID, none)
        match branch.2 with
        | some e => (branch.1, some e)
        | none =>
          let _err1 := env.peerMinBlockAck s peerID highestBlock
          (branch.1 ++ [Effect.peerMinBlock s peerID highestBlock], none)

/-- Handler for `BlockHeaders66`: structural decode, then the streaming
pass (outer list, request id), then `blockHeaders`. -/
def blockHeaders66 (env : Env) (s : Nat) (inMsg : InboundMessage) :
    List Effect × Option Err :=
  match env.decodeBlockHeaders66 inMsg.data with
  | .error e => ([], some (wrapErr "decode 1 BlockHeadersPacket66: " e))
  | .ok (_rid, pkt) =>
    let st := env.bhStream inMsg.data
    match st.enterOuter with
    | .error e => ([], some (wrapErr "decode 1 BlockHeadersPacket66: " e))
    | .ok _ =>
      match st.readReqId with
      | .error e => ([], some (wrapErr "decode 2 BlockHeadersPacket66: " e))
      | .ok _ => blockHeaders env s pkt st inMsg.peerId

/-- The propagation decision of `newBlock66`: start from `!TTD-passed`
and, when a first PoS height has been observed and propagation is still
on, keep propagating only while `firstPoSHeight >= segments[0].Number`. -/
def nbPropagate (env : Env) (segments : List ChainSegmentHeader) : Bool :=
  let seg0 := segments.headD emptySeg
  let propagate0 := !env.ttdPassed
  -- Do not propagate blocks who are post TTD
  match env.hdFirstPoSHeight with
  | some fp => if propagate0 then decide (seg0.number ≤ fp) else propagate0
  | none => propagate0

/-- Handler for `NewBlock66`. -/
def newBlock66 (env : Env) (s : Nat) (inreq : InboundMessage) :
    List Effect × Option Err :=
  if env.disableBlockDownload then ([], none)
  else
    let st := env.nbStream inreq.data
    match st.enter1 with
    | .error e => ([], some (wrapErr "decode 1 NewBlockMsg: " e))
    | .ok _ =>
    match st.enter2 with
    | .error e => ([], some (wrapErr "decode 2 NewBlockMsg: " e))
    | .ok _ =>
    match st.headerRaw with
    | .error e => ([], some (wrapErr "decode 3 NewBlockMsg: " e))
    | .ok headerRaw =>
    match env.decodeNewBlockPacket inreq.data with
    | .error e => ([], some (wrapErr "decode 4 NewBlockMsg: " e))
    | .ok request =>
    match env.sanityCheck request with
    | .error e => ([], some (wrapErr "newBlock66: " e))
    | .ok _ =>
    match env.hashCheck request with
    | .error e => ([], some (wrapErr "newBlock66: " e))
    | .ok _ =>
    match env.hdSingleHeaderAsSegment headerRaw request.block.header with
    | .error e => ([], some (wrapErr "singleHeaderAsSegment failed: " e))
    | .ok (segments, penalty) =>
      let branchEffs :=
        if penalty = HdPenalty.noPenalty then
          let seg0 := segments.headD emptySeg
          let propEffs :=
            if !env.isMock && nbPropagate env segments then
              [Effect.propagateNewBlockHashes [(seg0.number, seg0.hash)]]
            else []
          propEffs ++ [Effect.processHeaders segments true inreq.peerId]
        else
          (env.sentries.filter fun i => !env.sentrySkipNotReady i).map
            fun i => Effect.penalize i inreq.peerId PenaltyKind.kick
      let minB := request.block.header.number % u64Mod
      let _err1 := env.peerMinBlockAck s inreq.peerId minB
      (branchEffs ++ [Effect.addToPrefetch request.block.header request.block.rawBody,
        Effect.peerMinBlock s inreq.peerId minB], none)

/-- Handler for `BlockBodies66`. -/
def blockBodies66 (env : Env) (_s : Nat) (inreq : InboundMessage) :
    List Effect × Option Err :=
  if env.disableBlockDownload then ([], none)
  else
    match env.decodeBlockRawBodies66 inreq.data with
    | .error e => ([], some (wrapErr "decode BlockBodiesPacket66: " e))
    | .ok (txs, uncles, withdrawals) =>
      if txs.length == 0 && uncles.length == 0 && withdrawals.length == 0 then ([], none)
      else
        ([Effect.deliverBodies txs uncles withdrawals inreq.data.length inreq.peerId], none)

/-- Handler for unsolicited `Receipts66`: a deliberate no-op. -/
def receipts66 (_env : Env) (_s : Nat) (_inreq : InboundMessage) :
    List Effect × Option Err :=
  ([], none)

/-- Handler for `GetBlockHeaders66`: decode, answer from the store, and
reply (even with an empty header list) with the request id echoed.
Note: on a send failure, both branches of the `isPeerNotFoundErr` check
in the source return the wrapped error. -/
def getBlockHeaders66 (env : Env) (s : Nat) (inreq : InboundMessage) :
    List Effect × Option Err :=
  match env.decodeGetBlockHeaders66 inreq.data with
  | .error e => ([], some (wrapErr "decoding getBlockHeaders66: " e))
  | .ok query =>
    match env.dbViewAnswerGetBlockHeaders query.query with
    | .error e => ([], some (wrapErr "querying BlockHeaders: " e))
    | .ok headers =>
      let m := OutMsg.blockHeaders66 query.requestId headers
      let effs := [Effect.sendMessageById s inreq.peerId m]
      match env.sendMessageById s inreq.peerId m with
      | none => (effs, none)
      | some e =>
        if !isPeerNotFoundErr e then
          (effs, some (sendErrToErr "send header response 66: " e))
        else
          (effs, some (sendErrToErr "send header response 66: " e))

/-- Handler for `GetBlockBodies66`. -/
def getBlockBodies66 (env : Env) (s : Nat) (inreq : InboundMessage) :
    List Effect × Option Err :=
  match env.decodeGetBlockBodies66 inreq.data with
  | .error e => ([], some (wrapErr "decoding getBlockBodies66: " e))
  | .ok query =>
    match env.beginRo with
    | .error e => ([], some e)
    | .ok _ =>
      let response := env.answerGetBlockBodies query.2
      let m := OutMsg.blockBodies66 query.1 response
      let effs := [Effect.sendMessageById s inreq.peerId m]
      match env.sendMessageById s inreq.peerId m with
      | none => (effs, none)
      | some e =>
        if isPeerNotFoundErr e then (effs, none)
        else (effs, some (sendErrToErr "send bodies response: " e))

/-- Handler for `GetReceipts66`: cache-only lookup first; on a miss,
acquire the receipts semaphore, open a temporal transaction and compute
the remainder; then reply. -/
def getReceipts66 (env : Env) (s : Nat) (inreq : InboundMessage) :
    List Effect × Option Err :=
  match env.decodeGetReceipts66 inreq.data with
  | .error e => ([], some (wrapErr "decoding getReceipts66: " e))
  | .ok query =>
    match env.answerGetReceiptsCacheOnly query.2 with
    | .error e => ([], some e)
    | .ok (cached, needMore) =>
      let rl0 := match cached with | some c => c | none => []
      let full : Except Err (List Bytes) :=
        if needMore then
          match env.acquireReceiptsSemaphore with
          | .error e => .error e
          | .ok _ =>
            match env.beginTemporalRo with
            | .error e => .error e
            | .ok _ => env.answerGetReceipts query.2 cached
        else .ok rl0
      match full with
      | .error e => ([], some e)
      | .ok receiptsList =>
        let m := OutMsg.receipts66 query.1 receiptsList
        let effs := [Effect.sendMessageById s inreq.peerId m]
        match env.sendMessageById s inreq.peerId m with
        | none => (effs, none)
        | some e =>
          if isPeerNotFoundErr e then (effs, none)
          else (effs, some (sendErrToErr "send receipts response: " e))

/-- The tag switch of `handleInboundMessage`; unknown tags fail. -/
def handleInboundMessage (env : Env) (s : Nat) (inreq : InboundMessage) :
    List Effect × Option Err :=
  match inreq.id with
  | .NEW_BLOCK_HASHES_66 => newBlockHashes66 env s inreq
  | .BLOCK_HEADERS_66 => blockHeaders66 env s inreq
  | .NEW_BLOCK_66 => newBlock66 env s inreq
  | .BLOCK_BODIES_66 => blockBodies66 env s inreq
  | .GET_BLOCK_HEADERS_66 => getBlockHeaders66 env s inreq
  | .GET_BLOCK_BODIES_66 => getBlockBodies66 env s inreq
  | .RECEIPTS_66 => receipts66 env s inreq
  | .GET_RECEIPTS_66 => getReceipts66 env s inreq
  | .OTHER _ => ([], some ⟨false, "not implemented for message Id"⟩)

/-- The dispatcher entry point: run the tag switch and, when the returned
error is classified invalid-RLP, issue one best-effort `Kick` penalty for
the message's peer on the same sentry; the handler error is returned
unchanged either way. -/
def HandleInboundMessage (env : Env) (s : Nat) (message : InboundMessage) :
    List Effect × Option Err :=
  let r := handleInboundMessage env s message
  match r.2 with
  | some e =>
    if e.invalidRLP then
      let _err1 := env.penalizePeerAck s message.peerId
      (r.1 ++ [Effect.penalize s message.peerId PenaltyKind.kick], some e)
    else (r.1, some e)
  | none => (r.1, none)

/-- The spec's description of the `NewBlockHashes66` handler, used as the
comparison point for refinement: for each announce, record it as seen;
if the downloader already has a link, skip; else send one
`GetBlockHeaders66` request to the announcing peer with the announced
hash as origin, amount 1, skip 0, not reverse, and a random 64-bit
request id. -/
def newBlockHashes66Spec (env : Env) (s : Nat) (peer : Nat) :
    List Announce → Nat → List Effect
  | [], _ => []
  | a :: rest, k =>
    Effect.saveExternalAnnounce a.hash ::
      (if env.hdHasLink a.hash then newBlockHashes66Spec env s peer rest k
       else
         Effect.sendMessageById s peer
             (OutMsg.getBlockHeaders66 (env.rand k % u64Mod) (HashOrNumber.hash a.hash) 1 0 false) ::
           newBlockHashes66Spec env s peer rest (k + 1))

/-- Effect classifiers used by the counting theorems. -/
def isPenalizeEff : Effect → Bool
  | .penalize _ _ _ => true
  | _ => false

/-- Recognizes a `Kick` penalty for peer `p` on sentry `s`. -/
def kickFor (s p : Nat) : Effect → Bool
  | .penalize s2 p2 k => s2 == s && p2 == p && (k == PenaltyKind.kick)
  | _ => false

/-- Recognizes any `PeerMinBlock` call. -/
def isPeerMinBlockEff : Effect → Bool
  | .peerMinBlock _ _ _ => true
  | _ => false

/-- Number of `Kick` penalties for peer `p` on sentry `s` in an effect list. -/
def kickCount (s p : Nat) (l : List Effect) : Nat :=
  (l.filter (kickFor s p)).length

theorem noPenalize_filter_kick {l : List Effect} (h : ∀ x ∈ l, isPenalizeEff x = false)
    (s p : Nat) : l.filter (kickFor s p) = [] := by
  rw [List.filter_eq_nil_iff]
  intro a ha
  have := h a ha
  cases a <;> simp_all [isPenalizeEff, kickFor]

instance : IsTotal ChainSegmentHeader fun a b => a.number ≤ b.number :=
  ⟨fun a b => Nat.le_total a.number b.number⟩

instance : IsTrans ChainSegmentHeader fun a b => a.number ≤ b.number :=
  ⟨fun _ _ _ h1 h2 => Nat.le_trans h1 h2⟩

instance : IsTotal ChainSegmentHeader fun a b => b.number ≤ a.number :=
  ⟨fun a b => Nat.le_total b.number a.number⟩

instance : IsTrans ChainSegmentHeader fun a b => b.number ≤ a.number :=
  ⟨fun _ _ _ h1 h2 => Nat.le_trans h2 h1⟩

theorem headersSort_sorted (l : List ChainSegmentHeader) :
    (HeadersSort l).Sorted fun a b => a.number ≤ b.number :=
  List.sorted_insertionSort _ l

theorem headersReverseSort_sorted (l : List ChainSegmentHeader) :
    (HeadersReverseSort l).Sorted fun a b => b.number ≤ a.number :=
  List.sorted_insertionSort _ l

theorem headersSort_perm (l : List ChainSegmentHeader) : (HeadersSort l).Perm l :=
  List.perm_insertionSort _ l

theorem headersReverseSort_perm (l : List ChainSegmentHeader) :
    (HeadersReverseSort l).Perm l :=
  List.perm_insertionSort _ l

theorem sorted_lt_of_le_of_nodup {l : List ChainSegmentHeader}
    (hs : l.Sorted fun a b => a.number ≤ b.number)
    (hn : (l.map ChainSegmentHeader.number).Nodup) :
    l.Sorted fun a b => a.number < b.number := by
  have hn2 : l.Pairwise fun a b => a.number ≠ b.number := by
    simpa [List.Nodup, List.pairwise_map] using hn
  exact (List.Pairwise.and hs hn2).imp fun h => lt_of_le_of_ne h.1 h.2

theorem sorted_gt_of_ge_of_nodup {l : List ChainSegmentHeader}
    (hs : l.Sorted fun a b => b.number ≤ a.number)
    (hn : (l.map ChainSegmentHeader.number).Nodup) :
    l.Sorted fun a b => b.number < a.number := by
  have hn2 : l.Pairwise fun a b => a.number ≠ b.number := by
    simpa [List.Nodup, List.pairwise_map] using hn
  exact (List.Pairwise.and hs hn2).imp fun h => lt_of_le_of_ne h.1 (Ne.symm h.2)

theorem mkCsHeaders_mem {env : Env} {raw : Nat → Except Err Bytes} :
    ∀ {pkt : List Header} {i : Nat} {l : List ChainSegmentHeader},
    mkCsHeaders env raw pkt i = .ok l →
    ∀ seg ∈ l, seg.hash = env.rawRlpHash seg.headerRaw ∧
      ∃ j, raw j = .ok seg.headerRaw := by
  intro pkt
  induction pkt with
  | nil =>
    intro i l h seg hseg
    simp only [mkCsHeaders, Except.ok.injEq] at h
    subst h; simp at hseg
  | cons hd tl ih =>
    intro i l h seg hseg
    simp only [mkCsHeaders] at h
    cases hraw : raw i with
    | error e => rw [hraw] at h; simp at h
    | ok r =>
      rw [hraw] at h
      cases hrec : mkCsHeaders env raw tl (i + 1) with
      | error e => rw [hrec] at h; simp at h
      | ok tl2 =>
        rw [hrec] at h
        simp only [Except.ok.injEq] at h
        subst h
        rcases List.mem_cons.mp hseg with hseg | hseg
        · subst hseg; exact ⟨rfl, i, hraw⟩
        · exact ih hrec seg hseg

theorem foldl_max_init_le : ∀ (l : List Nat) (a : Nat), a ≤ l.foldl max a := by
  intro l
  induction l with
  | nil => intro a; simp
  | cons y ys ih =>
    intro a
    calc a ≤ max a y := Nat.le_max_left a y
      _ ≤ ys.foldl max (max a y) := ih (max a y)

theorem foldl_max_le_mem : ∀ (l : List Nat) (a : Nat), ∀ x ∈ l, x ≤ l.foldl max a := by
  intro l
  induction l with
  | nil => intro a x hx; simp at hx
  | cons y ys ih =>
    intro a x hx
    rcases List.mem_cons.mp hx with hx | hx
    · subst hx
      calc x ≤ max a x := Nat.le_max_right a x
        _ ≤ ys.foldl max (max a x) := foldl_max_init_le ys (max a x)
    · exact ih (max a y) x hx

theorem foldl_max_mem_cons : ∀ (l : List Nat) (a : Nat), l.foldl max a ∈ a :: l := by
  intro l
  induction l with
  | nil => intro a; simp
  | cons y ys ih =>
    intro a
    have h := ih (max a y)
    rcases List.mem_cons.mp h with h | h
    · rcases max_choice a y with hm | hm <;> rw [List.foldl_cons, h, hm] <;> simp
    · simp [List.mem_cons, h]

theorem highestBlockOf_ge {pkt : List Header} :
    ∀ h ∈ pkt, h.number % u64Mod ≤ highestBlockOf pkt := by
  intro h hh
  exact foldl_max_le_mem _ 0 _ (List.mem_map_of_mem _ hh)

theorem highestBlockOf_mem {pkt : List Header} (hne : pkt ≠ []) :
    highestBlockOf pkt ∈ pkt.map fun h => h.number % u64Mod := by
  have hmem := foldl_max_mem_cons (pkt.map fun x => x.number % u64Mod) 0
  rw [show (pkt.map fun x => x.number % u64Mod).foldl max 0 = highestBlockOf pkt from rfl]
    at hmem
  rcases List.mem_cons.mp hmem with heq | hmem2
  · cases pkt with
    | nil => exact absurd rfl hne
    | cons h tl =>
      have hle : h.number % u64Mod ≤ highestBlockOf (h :: tl) :=
        highestBlockOf_ge h (List.mem_cons_self h tl)
      rw [heq] at hle
      have h0 : h.number % u64Mod = 0 := Nat.le_zero.mp hle
      rw [heq]
      simp only [List.map_cons, List.mem_cons]
      exact Or.inl h0.symm
  · exact hmem2

theorem mem_Penalize {env : Env} {pen : List PenaltyItem} {x : Effect}
    (h : x ∈ Penalize env pen) : ∃ i p, x = Effect.penalize i p PenaltyKind.kick := by
  simp only [Penalize, List.mem_flatMap, List.mem_map] at h
  rcases h with ⟨p, _, i, _, rfl⟩
  exact ⟨i, p.peerId, rfl⟩

theorem mem_blockHeadersPow {env : Env} {csH : List ChainSegmentHeader} {peerID : Nat}
    {x : Effect} (h : x ∈ blockHeadersPow env csH peerID) :
    x = Effect.processHeaders (HeadersSort csH) false peerID ∨
      (∃ r, x = Effect.sendHeaderRequest r) ∨
      (∃ r p, x = Effect.updateStats r p) ∨
      (∃ r t, x = Effect.updateRetryTime r t) ∨
      (∃ i p, x = Effect.penalize i p PenaltyKind.kick) := by
  simp only [blockHeadersPow] at h
  split at h
  · simp only [List.append_assoc, List.mem_append, List.mem_cons,
      List.not_mem_nil, or_false] at h
    rcases h with h | h | h
    · exact Or.inl h
    · split at h
      · simp at h
      · simp only [List.cons_append, List.mem_cons] at h
        rcases h with h | h
        · exact Or.inr (Or.inl ⟨_, h⟩)
        · split at h
          · simp only [List.nil_append, List.mem_cons, List.not_mem_nil, or_false] at h
            rcases h with h | h
            · exact Or.inr (Or.inr (Or.inl ⟨_, _, h⟩))
            · exact Or.inr (Or.inr (Or.inr (Or.inl ⟨_, _, h⟩)))
          · simp at h
    · split at h
      · rcases mem_Penalize h with ⟨i, p, rfl⟩
        exact Or.inr (Or.inr (Or.inr (Or.inr ⟨i, p, rfl⟩)))
      · simp at h
  · simp only [List.mem_cons, List.not_mem_nil, or_false] at h
    exact Or.inl h

theorem mem_blockHeadersPos {env : Env} {csH : List ChainSegmentHeader} {peerID : Nat}
    {x : Effect} (h : x ∈ (blockHeadersPos env csH peerID).1) :
    x = Effect.processHeadersPOS (HeadersReverseSort csH) peerID ∨
      ∃ i p, x = Effect.penalize i p PenaltyKind.kick := by
  simp only [blockHeadersPos] at h
  split at h
  · simp at h
  · split at h
    · simp only [List.mem_cons, List.not_mem_nil, or_false] at h
      exact Or.inl h
    · split at h
      · simp only [List.cons_append, List.nil_append, List.mem_cons] at h
        rcases h with h | h
        · exact Or.inl h
        · exact Or.inr (mem_Penalize h)
      · simp only [List.mem_cons, List.not_mem_nil, or_false] at h
        exact Or.inl h

theorem filter_minBlock_blockHeadersPow (env : Env) (csH : List ChainSegmentHeader)
    (peerID : Nat) : (blockHeadersPow env csH peerID).filter isPeerMinBlockEff = [] := by
  rw [List.filter_eq_nil_iff]
  intro a ha
  rcases mem_blockHeadersPow ha with h | ⟨_, h⟩ | ⟨_, _, h⟩ | ⟨_, _, h⟩ | ⟨_, _, h⟩ <;>
    subst h <;> simp [isPeerMinBlockEff]

theorem filter_minBlock_blockHeadersPos (env : Env) (csH : List ChainSegmentHeader)
    (peerID : Nat) :
    (blockHeadersPos env csH peerID).1.filter isPeerMinBlockEff = [] := by
  rw [List.filter_eq_nil_iff]
  intro a ha
  rcases mem_blockHeadersPos ha with h | ⟨_, _, h⟩ <;>
    subst h <;> simp [isPeerMinBlockEff]

/-- Any `ProcessHeaders` call recorded by `blockHeaders66` carries the
ascending-sorted chain segments built by `mkCsHeaders`, and happens only
in pre-merge mode. -/
theorem blockHeaders66_processHeaders_char {env : Env} {s : Nat} {msg : InboundMessage}
    {segs : List ChainSegmentHeader} {nb : Bool} {p : Nat}
    (h : Effect.processHeaders segs nb p ∈ (blockHeaders66 env s msg).1) :
    ∃ rid pkt csH, env.decodeBlockHeaders66 msg.data = .ok (rid, pkt) ∧
      mkCsHeaders env (env.bhStream msg.data).raw pkt 0 = .ok csH ∧
      segs = HeadersSort csH ∧ nb = false ∧ p = msg.peerId ∧ env.hdPOSSync = false := by
  simp only [blockHeaders66] at h
  cases hdec : env.decodeBlockHeaders66 msg.data with
  | error e => rw [hdec] at h; simp at h
  | ok ridPkt =>
    rw [hdec] at h
    obtain ⟨rid, pkt⟩ := ridPkt
    cases h1 : (env.bhStream msg.data).enterOuter with
    | error e => rw [h1] at h; simp at h
    | ok u1 =>
      rw [h1] at h
      cases h2 : (env.bhStream msg.data).readReqId with
      | error e => rw [h2] at h; simp at h
      | ok u2 =>
        rw [h2] at h
        simp only [blockHeaders] at h
        split at h
        · simp at h
        · split at h
          · simp at h
          · cases h3 : (env.bhStream msg.data).enterHeaders with
            | error e => rw [h3] at h; simp at h
            | ok u3 =>
              rw [h3] at h
              cases h4 : mkCsHeaders env (env.bhStream msg.data).raw pkt 0 with
              | error e => rw [h4] at h; simp at h
              | ok csH =>
                rw [h4] at h
                cases h5 : env.hdPOSSync with
                | true =>
                  rw [h5] at h
                  simp only [if_true] at h
                  split at h
                  · rcases mem_blockHeadersPos h with hx | ⟨_, _, hx⟩ <;> simp at hx
                  · simp only [List.mem_append, List.mem_cons, List.not_mem_nil,
                      or_false] at h
                    rcases h with h | h
                    · rcases mem_blockHeadersPos h with hx | ⟨_, _, hx⟩ <;> simp at hx
                    · simp at h
                | false =>
                  rw [h5] at h
                  simp only [if_false, Bool.false_eq_true] at h
                  simp only [List.mem_append, List.mem_cons, List.not_mem_nil,
                    or_false] at h
                  rcases h with h | h
                  · rcases mem_blockHeadersPow h with hx | ⟨_, hx⟩ | ⟨_, _, hx⟩ |
                      ⟨_, _, hx⟩ | ⟨_, _, hx⟩
                    · injection hx with e1 e2 e3
                      exact ⟨rid, pkt, csH, rfl, h4, e1, e2, e3, rfl⟩
                    all_goals simp at hx
                  · simp at h

/-- Any `ProcessHeadersPOS` call recorded by `blockHeaders66` carries the
descending-sorted chain segments built by `mkCsHeaders`, and happens only
in post-merge mode. -/
theorem blockHeaders66_processHeadersPOS_char {env : Env} {s : Nat} {msg : InboundMessage}
    {segs : List ChainSegmentHeader} {p : Nat}
    (h : Effect.processHeadersPOS segs p ∈ (blockHeaders66 env s msg).1) :
    ∃ rid pkt csH, env.decodeBlockHeaders66 msg.data = .ok (rid, pkt) ∧
      mkCsHeaders env (env.bhStream msg.data).raw pkt 0 = .ok csH ∧
      segs = HeadersReverseSort csH ∧ p = msg.peerId ∧ env.hdPOSSync = true := by
  simp only [blockHeaders66] at h
  cases hdec : env.decodeBlockHeaders66 msg.data with
  | error e => rw [hdec] at h; simp at h
  | ok ridPkt =>
    rw [hdec] at h
    obtain ⟨rid, pkt⟩ := ridPkt
    cases h1 : (env.bhStream msg.data).enterOuter with
    | error e => rw [h1] at h; simp at h
    | ok u1 =>
      rw [h1] at h
      cases h2 : (env.bhStream msg.data).readReqId with
      | error e => rw [h2] at h; simp at h
      | ok u2 =>
        rw [h2] at h
        simp only [blockHeaders] at h
        split at h
        · simp at h
        · split at h
          · simp at h
          · cases h3 : (env.bhStream msg.data).enterHeaders with
            | error e => rw [h3] at h; simp at h
            | ok u3 =>
              rw [h3] at h
              cases h4 : mkCsHeaders env (env.bhStream msg.data).raw pkt 0 with
              | error e => rw [h4] at h; simp at h
              | ok csH =>
                rw [h4] at h
                cases h5 : env.hdPOSSync with
                | true =>
                  rw [h5] at h
                  simp only [if_true] at h
                  split at h
                  · rcases mem_blockHeadersPos h with hx | ⟨_, _, hx⟩
                    · injection hx with e1 e2
                      exact ⟨rid, pkt, csH, rfl, h4, e1, e2, rfl⟩
                    · simp at hx
                  · simp only [List.mem_append, List.mem_cons, List.not_mem_nil,
                      or_false] at h
                    rcases h with h | h
                    · rcases mem_blockHeadersPos h with hx | ⟨_, _, hx⟩
                      · injection hx with e1 e2
                        exact ⟨rid, pkt, csH, rfl, h4, e1, e2, rfl⟩
                      · simp at hx
                    · simp at h
                | false =>
                  rw [h5] at h
                  simp only [if_false, Bool.false_eq_true] at h
                  simp only [List.mem_append, List.mem_cons, List.not_mem_nil,
                    or_false] at h
                  rcases h with h | h
                  · rcases mem_blockHeadersPow h with hx | ⟨_, hx⟩ | ⟨_, _, hx⟩ |
                      ⟨_, _, hx⟩ | ⟨_, _, hx⟩ <;> simp at hx
                  · simp at h

/-- The full result of `newBlock66` on an execution whose stream pass,
decode, sanity check, hash check and `SingleHeaderAsSegment` call all
succeed: the branch effects (propagation/ingestion on no-penalty, the
penalty fan-out otherwise) followed in either case by the body prefetch
and the `PeerMinBlock` call, with no error. -/
theorem newBlock66_shape {env : Env} {s : Nat} {msg : InboundMessage}
    (hdl : env.disableBlockDownload = false)
    {hr : Bytes}
    (h1 : (env.nbStream msg.data).enter1 = .ok ())
    (h2 : (env.nbStream msg.data).enter2 = .ok ())
    (h3 : (env.nbStream msg.data).headerRaw = .ok hr)
    {req : NewBlockPacket} (hdec : env.decodeNewBlockPacket msg.data = .ok req)
    (hs : env.sanityCheck req = .ok ()) (hh : env.hashCheck req = .ok ())
    {segs : List ChainSegmentHeader} {pen : HdPenalty}
    (hseg : env.hdSingleHeaderAsSegment hr req.block.header = .ok (segs, pen)) :
    newBlock66 env s msg =
      ((if pen = HdPenalty.noPenalty then
          (if !env.isMock && nbPropagate env segs then
            [Effect.propagateNewBlockHashes
              [((segs.headD emptySeg).number, (segs.headD emptySeg).hash)]]
          else []) ++ [Effect.processHeaders segs true msg.peerId]
        else
          (env.sentries.filter fun i => !env.sentrySkipNotReady i).map
            fun i => Effect.penalize i msg.peerId PenaltyKind.kick) ++
        [Effect.addToPrefetch req.block.header req.block.rawBody,
         Effect.peerMinBlock s msg.peerId (req.block.header.number % u64Mod)], none) := by
  simp only [newBlock66, hdl, h1, h2, h3, hdec, hs, hh, hseg, Bool.false_eq_true,
    if_false]

theorem nbhLoop_no_penalize (env : Env) (s : Nat) (peer : Nat) :
    ∀ (anns : List Announce) (k : Nat) (acc : List Effect),
    (∀ x ∈ acc, isPenalizeEff x = false) →
    ∀ x ∈ (nbhLoop env s peer anns k acc).1, isPenalizeEff x = false := by
  intro anns
  induction anns with
  | nil => intro k acc hacc x hx; exact hacc x hx
  | cons a rest ih =>
    intro k acc hacc x hx
    simp only [nbhLoop] at hx
    have hacc1 : ∀ y ∈ acc ++ [Effect.saveExternalAnnounce a.hash],
        isPenalizeEff y = false := by
      intro y hy
      rcases List.mem_append.mp hy with hy | hy
      · exact hacc y hy
      · simp only [List.mem_cons, List.not_mem_nil, or_false] at hy
        subst hy; rfl
    split at hx
    · exact ih k _ hacc1 x hx
    · have hacc2 : ∀ y ∈ (acc ++ [Effect.saveExternalAnnounce a.hash]) ++
          [Effect.sendMessageById s peer
            (OutMsg.getBlockHeaders66 (env.rand k % u64Mod)
              (HashOrNumber.hash a.hash) 1 0 false)],
          isPenalizeEff y = false := by
        intro y hy
        rcases List.mem_append.mp hy with hy | hy
        · exact hacc1 y hy
        · simp only [List.mem_cons, List.not_mem_nil, or_false] at hy
          subst hy; rfl
      split at hx
      · exact ih (k + 1) _ hacc2 x hx
      · split at hx
        · exact ih (k + 1) _ hacc2 x hx
        · exact hacc2 x hx

theorem newBlockHashes66_no_penalize (env : Env) (s : Nat) (msg : InboundMessage) :
    ∀ x ∈ (newBlockHashes66 env s msg).1, isPenalizeEff x = false := by
  intro x hx
  simp only [newBlockHashes66] at hx
  split at hx
  · simp at hx
  · split at hx
    · simp at hx
    · split at hx
      · simp at hx
      · exact nbhLoop_no_penalize env s msg.peerId _ 0 [] (by intro y hy; simp at hy) x hx

theorem blockHeaders66_err_no_penalize (env : Env) (s : Nat) (msg : InboundMessage)
    (e : Err) (herr : (blockHeaders66 env s msg).2 = some e) :
    ∀ x ∈ (blockHeaders66 env s msg).1, isPenalizeEff x = false := by
  intro x hx
  simp only [blockHeaders66] at hx herr
  cases hdec : env.decodeBlockHeaders66 msg.data with
  | error e2 => rw [hdec] at hx; simp at hx
  | ok ridPkt =>
    rw [hdec] at hx herr
    obtain ⟨rid, pkt⟩ := ridPkt
    cases h1 : (env.bhStream msg.data).enterOuter with
    | error e2 => rw [h1] at hx; simp at hx
    | ok u1 =>
      rw [h1] at hx herr
      cases h2 : (env.bhStream msg.data).readReqId with
      | error e2 => rw [h2] at hx; simp at hx
      | ok u2 =>
        rw [h2] at hx herr
        simp only [blockHeaders] at hx herr
        split at hx
        · simp at hx
        · split at hx
          · simp at hx
          · cases h3 : (env.bhStream msg.data).enterHeaders with
            | error e2 => rw [h3] at hx; simp at hx
            | ok u3 =>
              rw [h3] at hx herr
              cases h4 : mkCsHeaders env (env.bhStream msg.data).raw pkt 0 with
              | error e2 => rw [h4] at hx; simp at hx
              | ok csH =>
                rw [h4] at hx herr
                cases h5 : env.hdPOSSync with
                | true =>
                  rw [h5] at hx herr
                  simp only [if_true] at hx herr
                  split at hx
                  · rename_i heq
                    simp only [blockHeadersPos] at hx heq
                    split at hx
                    · simp at hx
                    · split at hx
                      · simp only [List.mem_cons, List.not_mem_nil, or_false] at hx
                        subst hx; rfl
                      · split at hx <;> simp_all
                  · rename_i heq
                    rw [heq] at herr
                    split at herr <;> simp at herr
                | false =>
                  rw [h5] at hx herr
                  simp only [if_false, Bool.false_eq_true] at hx herr
                  split at herr <;> simp at herr

theorem newBlock66_err_no_penalize (env : Env) (s : Nat) (msg : InboundMessage)
    (e : Err) (herr : (newBlock66 env s msg).2 = some e) :
    ∀ x ∈ (newBlock66 env s msg).1, isPenalizeEff x = false := by
  intro x hx
  simp only [newBlock66] at hx herr
  split at hx
  · simp at hx
  · split at hx
    · simp at hx
    · split at hx
      · simp at hx
      · split at hx
        · simp at hx
        · split at hx
          · simp at hx
          · split at hx
            · simp at hx
            · split at hx
              · simp at hx
              · split at hx
                · simp at hx
                · simp_all

theorem blockBodies66_no_penalize (env : Env) (s : Nat) (msg : InboundMessage) :
    ∀ x ∈ (blockBodies66 env s msg).1, isPenalizeEff x = false := by
  intro x hx
  simp only [blockBodies66] at hx
  split at hx
  · simp at hx
  · split at hx
    · simp at hx
    · split at hx
      · simp at hx
      · simp only [List.mem_cons, List.not_mem_nil, or_false] at hx
        subst hx; rfl

theorem getBlockHeaders66_no_penalize (env : Env) (s : Nat) (msg : InboundMessage) :
    ∀ x ∈ (getBlockHeaders66 env s msg).1, isPenalizeEff x = false := by
  intro x hx
  simp only [getBlockHeaders66] at hx
  split at hx
  · simp at hx
  · split at hx
    · simp at hx
    · split at hx <;>
        [skip; split at hx] <;>
        · simp only [List.mem_cons, List.not_mem_nil, or_false] at hx
          subst hx; rfl

theorem getBlockBodies66_no_penalize (env : Env) (s : Nat) (msg : InboundMessage) :
    ∀ x ∈ (getBlockBodies66 env s msg).1, isPenalizeEff x = false := by
  intro x hx
  simp only [getBlockBodies66] at hx
  split at hx
  · simp at hx
  · split at hx
    · simp at hx
    · split at hx <;>
        [skip; split at hx] <;>
        · simp only [List.mem_cons, List.not_mem_nil, or_false] at hx
          subst hx; rfl

theorem getReceipts66_no_penalize (env : Env) (s : Nat) (msg : InboundMessage) :
    ∀ x ∈ (getReceipts66 env s msg).1, isPenalizeEff x = false := by
  intro x hx
  simp only [getReceipts66] at hx
  split at hx
  · simp at hx
  · split at hx
    · simp at hx
    · split at hx
      · simp at hx
      · split at hx <;>
          [skip; split at hx] <;>
          · simp only [List.mem_cons, List.not_mem_nil, or_false] at hx
            subst hx; rfl

theorem handleInboundMessage_err_no_penalize (env : Env) (s : Nat) (msg : InboundMessage)
    (e : Err) (herr : (handleInboundMessage env s msg).2 = some e) :
    ∀ x ∈ (handleInboundMessage env s msg).1, isPenalizeEff x = false := by
  unfold handleInboundMessage at herr ⊢
  cases hid : msg.id <;> rw [hid] at herr
  case NEW_BLOCK_HASHES_66 => exact newBlockHashes66_no_penalize env s msg
  case BLOCK_HEADERS_66 => exact blockHeaders66_err_no_penalize env s msg e herr
  case NEW_BLOCK_66 => exact newBlock66_err_no_penalize env s msg e herr
  case BLOCK_BODIES_66 => exact blockBodies66_no_penalize env s msg
  case GET_BLOCK_HEADERS_66 => exact getBlockHeaders66_no_penalize env s msg
  case GET_BLOCK_BODIES_66 => exact getBlockBodies66_no_penalize env s msg
  case RECEIPTS_66 => intro x hx; simp [receipts66] at hx
  case GET_RECEIPTS_66 => exact getReceipts66_no_penalize env s msg
  case OTHER => intro x hx; simp at hx

/-- On a successfully completed `blockHeaders66` run over a non-empty
packet, the recorded `PeerMinBlock` calls are exactly one, for the source
peer, with the packet's highest block number. -/
theorem blockHeaders66_minBlock_filter {env : Env} {s : Nat} {msg : InboundMessage}
    {rid : Nat} {pkt : List Header}
    (hdl : env.disableBlockDownload = false)
    (hdec : env.decodeBlockHeaders66 msg.data = .ok (rid, pkt))
    (hne : pkt ≠ [])
    (hok : (blockHeaders66 env s msg).2 = none) :
    (blockHeaders66 env s msg).1.filter isPeerMinBlockEff =
      [Effect.peerMinBlock s msg.peerId (highestBlockOf pkt)] := by
  simp only [blockHeaders66, hdec] at hok ⊢
  cases h1 : (env.bhStream msg.data).enterOuter with
  | error e => rw [h1] at hok; simp at hok
  | ok u1 =>
    rw [h1] at hok
    cases h2 : (env.bhStream msg.data).readReqId with
    | error e => rw [h2] at hok; simp at hok
    | ok u2 =>
      rw [h2] at hok
      have hne2 : (pkt.length == 0) = false := by
        simp only [beq_eq_false_iff_ne, ne_eq, List.length_eq_zero]
        exact hne
      simp only [blockHeaders, hdl, hne2, Bool.false_eq_true, if_false] at hok ⊢
      cases h3 : (env.bhStream msg.data).enterHeaders with
      | error e => rw [h3] at hok; simp at hok
      | ok u3 =>
        rw [h3] at hok
        cases h4 : mkCsHeaders env (env.bhStream msg.data).raw pkt 0 with
        | error e => rw [h4] at hok; simp at hok
        | ok csH =>
          rw [h4] at hok
          cases h5 : env.hdPOSSync with
          | true =>
            rw [h5] at hok
            cases h6 : (blockHeadersPos env csH msg.peerId).2 with
            | some e => simp [h6] at hok
            | none =>
              simp [h6, List.filter_append, filter_minBlock_blockHeadersPos,
                isPeerMinBlockEff]
          | false =>
            simp [List.filter_append, filter_minBlock_blockHeadersPow,
              isPeerMinBlockEff]

/-- The announce loop refines the spec's per-announce description as long
as no send fails with an error other than "peer not found". -/
theorem nbhLoop_spec (env : Env) (s : Nat) (peer : Nat)
    (hsend : ∀ m e, env.sendMessageById s peer m = some e → e.peerNotFound = true) :
    ∀ (anns : List Announce) (k : Nat) (acc : List Effect),
    nbhLoop env s peer anns k acc = (acc ++ newBlockHashes66Spec env s peer anns k, none) := by
  intro anns
  induction anns with
  | nil => intro k acc; simp [nbhLoop, newBlockHashes66Spec]
  | cons a rest ih =>
    intro k acc
    simp only [nbhLoop, newBlockHashes66Spec]
    by_cases hl : env.hdHasLink a.hash = true
    · rw [if_pos hl, if_pos hl, ih]
      simp
    · rw [if_neg hl, if_neg hl]
      cases hs2 : env.sendMessageById s peer
          (OutMsg.getBlockHeaders66 (env.rand k % u64Mod) (HashOrNumber.hash a.hash)
            1 0 false) with
      | none => rw [ih]; simp
      | some e =>
        have hpnf := hsend _ _ hs2
        simp only [isPeerNotFoundErr, hpnf, if_true]
        rw [ih]
        simp

/-- A fully concrete environment used by witnesses and counterexamples. -/
def baseEnv : Env where
  disableBlockDownload := false
  isMock := false
  ttdPassed := false
  sentries := [0]
  sentrySkipNotReady := fun _ => false
  hdInitialCycle := false
  hdFetchingNew := true
  hdPOSSync := false
  hdHasLink := fun _ => false
  hdFirstPoSHeight := none
  hdProcessHeaders := fun _ _ _ => false
  hdProcessHeadersPOS := fun _ _ => .ok []
  hdRequestMoreHeaders := (none, [])
  hdSingleHeaderAsSegment := fun _ _ => .ok ([emptySeg], HdPenalty.noPenalty)
  sendHeaderRequestResult := fun _ => (0, false)
  beginTemporalRo := .ok ()
  beginRo := .ok ()
  dbViewAnswerGetBlockHeaders := fun _ => .ok []
  answerGetBlockBodies := fun _ => []
  answerGetReceiptsCacheOnly := fun _ => .ok (none, false)
  acquireReceiptsSemaphore := .ok ()
  answerGetReceipts := fun _ _ => .ok []
  decodeNewBlockHashes := fun _ => .error ⟨true, "rlp"⟩
  decodeBlockHeaders66 := fun _ => .error ⟨true, "rlp"⟩
  bhStream := fun _ => ⟨.ok (), .ok 1, .ok (), fun i => .ok [i]⟩
  decodeNewBlockPacket := fun _ => .error ⟨true, "rlp"⟩
  nbStream := fun _ => ⟨.ok (), .ok (), .ok [9]⟩
  sanityCheck := fun _ => .ok ()
  hashCheck := fun _ => .ok ()
  decodeBlockRawBodies66 := fun _ => .error ⟨true, "rlp"⟩
  decodeGetBlockHeaders66 := fun _ => .error ⟨true, "rlp"⟩
  decodeGetBlockBodies66 := fun _ => .error ⟨true, "rlp"⟩
  decodeGetReceipts66 := fun _ => .error ⟨true, "rlp"⟩
  rawRlpHash := fun b => b.foldl (fun a x => 256 * a + x) 1
  rand := fun k => k + 41
  sendMessageById := fun _ _ _ => none
  penalizePeerAck := fun _ _ => none
  peerMinBlockAck := fun _ _ _ => none

/-- Concrete inbound messages from peer 7 (payload bytes are opaque to
the oracle-based codec). -/
def msgNBH : InboundMessage := ⟨7, .NEW_BLOCK_HASHES_66, [1]⟩

def msgBH : InboundMessage := ⟨7, .BLOCK_HEADERS_66, [2]⟩

def msgNB : InboundMessage := ⟨7, .NEW_BLOCK_66, [3]⟩

def msgGBH : InboundMessage := ⟨7, .GET_BLOCK_HEADERS_66, [4]⟩

def msgGBB : InboundMessage := ⟨7, .GET_BLOCK_BODIES_66, [5]⟩

/-- A `BlockHeaders66` packet with two distinct headers sharing block
number 5. -/
def envC2 : Env :=
  { baseEnv with decodeBlockHeaders66 := fun _ => .ok (1, [⟨5, 0⟩, ⟨5, 1⟩]) }

/-- The chain segments `envC2` hands to `ProcessHeaders`. -/
def cSegsC2 : List ChainSegmentHeader :=
  [⟨⟨5, 0⟩, [0], 256, 5⟩, ⟨⟨5, 1⟩, [1], 257, 5⟩]

/-- A no-penalty `NewBlock66` whose block sits exactly at the first
observed PoS height (100). -/
def envC4 : Env :=
  { baseEnv with
    hdFirstPoSHeight := some 100
    decodeNewBlockPacket := fun _ => .ok ⟨⟨⟨100, 0⟩, 0⟩, 0⟩
    hdSingleHeaderAsSegment := fun _ _ => .ok ([⟨⟨100, 0⟩, [9], 55, 100⟩], .noPenalty) }

/-- A no-penalty `NewBlock66` whose block sits strictly above the first
observed PoS height. -/
def envC4w : Env :=
  { baseEnv with
    hdFirstPoSHeight := some 100
    decodeNewBlockPacket := fun _ => .ok ⟨⟨⟨101, 0⟩, 0⟩, 0⟩
    hdSingleHeaderAsSegment := fun _ _ => .ok ([⟨⟨101, 0⟩, [9], 55, 101⟩], .noPenalty) }

/-- An empty-store `GetBlockHeaders66` query with request id 7. -/
def qC5 : GetBlockHeadersPacket66 := ⟨7, ⟨.number 9999999999, 10, 0, false⟩⟩

def envC5 : Env :=
  { baseEnv with
    decodeGetBlockHeaders66 := fun _ => .ok qC5
    dbViewAnswerGetBlockHeaders := fun _ => .ok [] }

/-- An environment in which every outbound send fails with "peer not
found". -/
def envC6 : Env :=
  { baseEnv with
    decodeGetBlockHeaders66 := fun _ => .ok qC5
    dbViewAnswerGetBlockHeaders := fun _ => .ok []
    decodeGetBlockBodies66 := fun _ => .ok (7, [])
    sendMessageById := fun _ _ _ => some ⟨true, "peer not found"⟩ }

/-- One unknown announce (hash 170 = 0xAA, number 100). -/
def envC7 : Env :=
  { baseEnv with decodeNewBlockHashes := fun _ => .ok [⟨170, 100⟩] }

/-- A `BlockHeaders66` packet with block numbers 8, 11, 10. -/
def envC8 : Env :=
  { baseEnv with
    decodeBlockHeaders66 := fun _ => .ok (1, [⟨8, 0⟩, ⟨11, 0⟩, ⟨10, 0⟩]) }

/-- A `NewBlock66` for which `SingleHeaderAsSegment` returns a penalty. -/
def envC9 : Env :=
  { baseEnv with
    decodeNewBlockPacket := fun _ => .ok ⟨⟨⟨42, 0⟩, 77⟩, 0⟩
    hdSingleHeaderAsSegment := fun _ _ => .ok ([⟨⟨42, 0⟩, [9], 55, 42⟩], .other 0) }

/-- The handler error produced by `baseEnv` on `NewBlockHashes66`. -/
def errC3 : Err := ⟨true, "decode NewBlockHashes66: rlp"⟩

/-- C1: every chain segment handed to the downloader by the
`BlockHeaders66` handler has `Hash = keccak(HeaderRaw)` where `HeaderRaw`
is one of the verbatim raw slices produced by the streaming second pass
over the original message bytes; no re-encoding of the typed header is
involved (the model contains no header encoder at all). -/
theorem claim_c1 (env : Env) (s : Nat) (msg : InboundMessage) :
    (∀ segs nb p, Effect.processHeaders segs nb p ∈ (blockHeaders66 env s msg).1 →
      ∀ seg ∈ segs, seg.hash = env.rawRlpHash seg.headerRaw ∧
        ∃ j, (env.bhStream msg.data).raw j = .ok seg.headerRaw) ∧
    (∀ segs p, Effect.processHeadersPOS segs p ∈ (blockHeaders66 env s msg).1 →
      ∀ seg ∈ segs, seg.hash = env.rawRlpHash seg.headerRaw ∧
        ∃ j, (env.bhStream msg.data).raw j = .ok seg.headerRaw) := by
  constructor
  · intro segs nb p h seg hseg
    obtain ⟨rid, pkt, csH, hdec, hmk, hsegs, _, _, _⟩ := blockHeaders66_processHeaders_char h
    subst hsegs
    exact mkCsHeaders_mem hmk seg ((headersSort_perm csH).mem_iff.mp hseg)
  · intro segs p h seg hseg
    obtain ⟨rid, pkt, csH, hdec, hmk, hsegs, _, _⟩ := blockHeaders66_processHeadersPOS_char h
    subst hsegs
    exact mkCsHeaders_mem hmk seg ((headersReverseSort_perm csH).mem_iff.mp hseg)

/-- Witness for C1 at the concrete packet of `envC2`. -/
theorem claim_c1_witness :
    (⟨⟨5, 0⟩, [0], 256, 5⟩ : ChainSegmentHeader).hash = envC2.rawRlpHash [0] ∧
    ∃ j, (envC2.bhStream msgBH.data).raw j = .ok [0] := by
  have h := (claim_c1 envC2 0 msgBH).1 cSegsC2 false 7 (by decide)
    ⟨⟨5, 0⟩, [0], 256, 5⟩ (by decide)
  simpa using h

/-- C2 (amended): the segments handed to the downloader by the
`BlockHeaders66` handler are sorted ascending by block number pre-merge
and descending post-merge; the order is strict whenever the block numbers
in the packet are pairwise distinct (with duplicate numbers the order is
only non-strict). -/
theorem claim_c2 (env : Env) (s : Nat) (msg : InboundMessage) :
    (∀ segs nb p, Effect.processHeaders segs nb p ∈ (blockHeaders66 env s msg).1 →
      segs.Sorted (fun a b => a.number ≤ b.number) ∧
      ((segs.map ChainSegmentHeader.number).Nodup →
        segs.Sorted fun a b => a.number < b.number)) ∧
    (∀ segs p, Effect.processHeadersPOS segs p ∈ (blockHeaders66 env s msg).1 →
      segs.Sorted (fun a b => b.number ≤ a.number) ∧
      ((segs.map ChainSegmentHeader.number).Nodup →
        segs.Sorted fun a b => b.number < a.number)) := by
  constructor
  · intro segs nb p h
    obtain ⟨rid, pkt, csH, hdec, hmk, hsegs, _, _, _⟩ := blockHeaders66_processHeaders_char h
    subst hsegs
    exact ⟨headersSort_sorted csH,
      fun hn => sorted_lt_of_le_of_nodup (headersSort_sorted csH) hn⟩
  · intro segs p h
    obtain ⟨rid, pkt, csH, hdec, hmk, hsegs, _, _⟩ := blockHeaders66_processHeadersPOS_char h
    subst hsegs
    exact ⟨headersReverseSort_sorted csH,
      fun hn => sorted_gt_of_ge_of_nodup (headersReverseSort_sorted csH) hn⟩

/-- Counterexample to C2 as stated: with two headers both at height 5 the
pre-merge handler hands the downloader a sequence that is NOT strictly
ascending (only non-strictly). -/
theorem claim_c2_counterexample :
    envC2.hdPOSSync = false ∧
    Effect.processHeaders cSegsC2 false 7 ∈ (blockHeaders66 envC2 0 msgBH).1 ∧
    ¬ cSegsC2.Sorted (fun a b => a.number < b.number) := by
  refine ⟨rfl, by decide, by decide⟩

/-- Witness for (amended) C2 at the concrete packet of `envC2`. -/
theorem claim_c2_witness :
    cSegsC2.Sorted (fun a b => a.number ≤ b.number) :=
  ((claim_c2 envC2 0 msgBH).1 cSegsC2 false 7 (by decide)).1

/-- C3: the dispatcher returns the handler result unchanged except that,
exactly when the handler error is classified invalid-RLP, it appends one
`Kick` penalty for the originating peer on the same sentry; the penalize
acknowledgement is discarded (a failed penalize does not propagate), and
on any handler error the total number of `Kick` penalties for that peer
on that sentry is one for invalid-RLP errors and zero otherwise. -/
theorem claim_c3 (env : Env) (s : Nat) (msg : InboundMessage) :
    HandleInboundMessage env s msg =
      ((handleInboundMessage env s msg).1 ++
        (match (handleInboundMessage env s msg).2 with
         | some e =>
           if e.invalidRLP then [Effect.penalize s msg.peerId PenaltyKind.kick] else []
         | none => []),
       (handleInboundMessage env s msg).2) ∧
    (∀ e, (handleInboundMessage env s msg).2 = some e →
      kickCount s msg.peerId (HandleInboundMessage env s msg).1 =
        if e.invalidRLP then 1 else 0) := by
  constructor
  · simp only [HandleInboundMessage]
    cases h : (handleInboundMessage env s msg).2 with
    | none => simp
    | some e => cases hb : e.invalidRLP <;> simp [hb]
  · intro e he
    have hnok := handleInboundMessage_err_no_penalize env s msg e he
    have hfilter := noPenalize_filter_kick hnok s msg.peerId
    simp only [HandleInboundMessage, he]
    cases hb : e.invalidRLP
    · simp only [Bool.false_eq_true, if_false]
      simp [kickCount, hfilter]
    · simp only [if_true]
      simp [kickCount, List.filter_append, hfilter, kickFor]

/-- Witness for C3: an invalid-RLP decode failure yields exactly one
`Kick` for the peer on the delivering sentry. -/
theorem claim_c3_witness :
    (handleInboundMessage baseEnv 0 msgNBH).2 = some errC3 ∧
    kickCount 0 7 (HandleInboundMessage baseEnv 0 msgNBH).1 = 1 := by
  refine ⟨by decide, ?_⟩
  have h := (claim_c3 baseEnv 0 msgNBH).2 errC3 (by decide)
  simpa [errC3] using h

/-- C4 (amended): a no-penalty `NewBlock66` produces no `NewBlockHashes`
broadcast when the first observed PoS height is set and the block's
number is STRICTLY greater than it (at exactly that height the source
still propagates, because the gate keeps propagating while
`firstPoSHeight >= number`); broadcast is also skipped entirely in mock
mode. -/
theorem claim_c4 (env : Env) (s : Nat) (msg : InboundMessage) (hr : Bytes)
    (req : NewBlockPacket) (segs : List ChainSegmentHeader) (pen : HdPenalty)
    (hdl : env.disableBlockDownload = false)
    (h1 : (env.nbStream msg.data).enter1 = .ok ())
    (h2 : (env.nbStream msg.data).enter2 = .ok ())
    (h3 : (env.nbStream msg.data).headerRaw = .ok hr)
    (hdec : env.decodeNewBlockPacket msg.data = .ok req)
    (hs : env.sanityCheck req = .ok ()) (hh : env.hashCheck req = .ok ())
    (hseg : env.hdSingleHeaderAsSegment hr req.block.header = .ok (segs, pen))
    (hgate : env.isMock = true ∨
      ∃ fp, env.hdFirstPoSHeight = some fp ∧ fp < (segs.headD emptySeg).number) :
    ∀ anns, Effect.propagateNewBlockHashes anns ∉ (newBlock66 env s msg).1 := by
  intro anns hmem
  rw [newBlock66_shape hdl h1 h2 h3 hdec hs hh hseg] at hmem
  have hprop : (!env.isMock && nbPropagate env segs) = false := by
    rcases hgate with hmock | ⟨fp, hfp, hlt⟩
    · simp [hmock]
    · have hnp : nbPropagate env segs = false := by
        simp only [nbPropagate, hfp]
        cases hb : (!env.ttdPassed)
        · simp
        · rw [if_pos rfl]
          exact decide_eq_false (not_le.mpr hlt)
      simp [hnp]
  simp only [List.mem_append, List.mem_cons, List.not_mem_nil, or_false] at hmem
  rcases hmem with hmem | hmem | hmem
  · by_cases hpen : pen = HdPenalty.noPenalty
    · rw [if_pos hpen] at hmem
      simp only [List.mem_append] at hmem
      rcases hmem with hmem | hmem
      · rw [hprop] at hmem
        simp at hmem
      · simp at hmem
    · rw [if_neg hpen] at hmem
      simp only [List.mem_map] at hmem
      obtain ⟨i, _, hcon⟩ := hmem
      exact Effect.noConfusion hcon
  · exact Effect.noConfusion hmem
  · exact Effect.noConfusion hmem

/-- Counterexample to C4 as stated: block number 100 equals the first
observed PoS height 100 (so number ≥ height), the block is accepted with
no penalty, mock mode is off — and the broadcast IS emitted. -/
theorem claim_c4_counterexample :
    envC4.isMock = false ∧ envC4.hdFirstPoSHeight = some 100 ∧
    Effect.propagateNewBlockHashes [(100, 55)] ∈ (newBlock66 envC4 0 msgNB).1 := by
  refine ⟨rfl, rfl, by decide⟩

/-- Witness for (amended) C4: at block number 101 > first PoS height 100
no broadcast is emitted. -/
theorem claim_c4_witness :
    Effect.propagateNewBlockHashes [(101, 55)] ∉ (newBlock66 envC4w 0 msgNB).1 :=
  claim_c4 envC4w 0 msgNB [9] ⟨⟨⟨101, 0⟩, 0⟩, 0⟩ [⟨⟨101, 0⟩, [9], 55, 101⟩]
    HdPenalty.noPenalty rfl rfl rfl rfl rfl rfl rfl rfl
    (Or.inr ⟨100, rfl, by decide⟩) [(101, 55)]

/-- C5: a successfully decoded `GetBlockHeaders66` query whose store
lookup succeeds always produces exactly one `BlockHeaders66` reply to the
requesting peer, echoing the query's request id, even when the header
list is empty. -/
theorem claim_c5 (env : Env) (s : Nat) (msg : InboundMessage)
    (q : GetBlockHeadersPacket66) (headers : List Header)
    (hdec : env.decodeGetBlockHeaders66 msg.data = .ok q)
    (hans : env.dbViewAnswerGetBlockHeaders q.query = .ok headers) :
    (getBlockHeaders66 env s msg).1 =
      [Effect.sendMessageById s msg.peerId (OutMsg.blockHeaders66 q.requestId headers)] := by
  simp only [getBlockHeaders66, hdec, hans]
  cases h : env.sendMessageById s msg.peerId (OutMsg.blockHeaders66 q.requestId headers) with
  | none => rfl
  | some e => cases hb : isPeerNotFoundErr e <;> simp [hb]

/-- Witness for C5: the empty store still produces a reply with request
id 7 and an empty list. -/
theorem claim_c5_witness :
    (getBlockHeaders66 envC5 0 msgGBH).1 =
      [Effect.sendMessageById 0 7 (OutMsg.blockHeaders66 7 [])] :=
  claim_c5 envC5 0 msgGBH qC5 [] rfl rfl

/-- C6 (code bug in `getBlockHeaders66`): when the header-response send
fails with "peer not found", the handler RETURNS the wrapped error (both
branches of its `isPeerNotFoundErr` check return it), instead of
swallowing it as the announce/bodies/receipts paths do — shown here by
contrast with `getBlockBodies66`, which returns no error on the very same
send failure. -/
theorem claim_c6_bug :
    isPeerNotFoundErr ⟨true, "peer not found"⟩ = true ∧
    (getBlockHeaders66 envC6 0 msgGBH).2 =
      some ⟨false, "send header response 66: peer not found"⟩ ∧
    (getBlockBodies66 envC6 0 msgGBB).2 = none :=
  ⟨rfl, rfl, rfl⟩

/-- C7: with block download enabled and the downloader past its initial
non-fetching cycle, a decoded `NewBlockHashes66` packet whose sends fail
at worst with "peer not found" is processed exactly as the spec says:
per announce one `SaveExternalAnnounce`, then — unless the downloader
has a link for the hash — one `GetBlockHeaders66` request to the
announcing peer with the announced hash as origin, amount 1, skip 0,
reverse false, and the next random 64-bit request id. -/
theorem claim_c7 (env : Env) (s : Nat) (msg : InboundMessage) (anns : List Announce)
    (hdl : env.disableBlockDownload = false)
    (hg : (env.hdInitialCycle && !env.hdFetchingNew) = false)
    (hdec : env.decodeNewBlockHashes msg.data = .ok anns)
    (hsend : ∀ m e, env.sendMessageById s msg.peerId m = some e → e.peerNotFound = true) :
    newBlockHashes66 env s msg = (newBlockHashes66Spec env s msg.peerId anns 0, none) := by
  simp only [newBlockHashes66, hdl, hg, hdec, Bool.false_eq_true, if_false]
  rw [nbhLoop_spec env s msg.peerId hsend anns 0 []]
  simp

/-- Witness for C7: announce (0xAA = 170, 100) with no link yields one
save and one single-header request with the next random id (41). -/
theorem claim_c7_witness :
    newBlockHashes66 envC7 0 msgNBH =
      ([Effect.saveExternalAnnounce 170,
        Effect.sendMessageById 0 7
          (OutMsg.getBlockHeaders66 41 (HashOrNumber.hash 170) 1 0 false)], none) := by
  have h := claim_c7 envC7 0 msgNBH [⟨170, 100⟩] rfl rfl rfl
    (fun m e hcon => by simp [envC7, baseEnv] at hcon)
  rw [h]
  decide

/-- C8: a completed `BlockHeaders66` run over a non-empty packet records
exactly one `PeerMinBlock` call, for the source peer, with the maximum
(uint64-narrowed) block number occurring in the packet. -/
theorem claim_c8 (env : Env) (s : Nat) (msg : InboundMessage) (rid : Nat)
    (pkt : List Header)
    (hdl : env.disableBlockDownload = false)
    (hdec : env.decodeBlockHeaders66 msg.data = .ok (rid, pkt))
    (hne : pkt ≠ [])
    (hok : (blockHeaders66 env s msg).2 = none) :
    (blockHeaders66 env s msg).1.filter isPeerMinBlockEff =
      [Effect.peerMinBlock s msg.peerId (highestBlockOf pkt)] ∧
    (∀ h ∈ pkt, h.number % u64Mod ≤ highestBlockOf pkt) ∧
    highestBlockOf pkt ∈ pkt.map fun h => h.number % u64Mod :=
  ⟨blockHeaders66_minBlock_filter hdl hdec hne hok, highestBlockOf_ge,
    highestBlockOf_mem hne⟩

/-- Witness for C8: block numbers 8, 11, 10 yield exactly one
`PeerMinBlock(peer 7, 11)`. -/
theorem claim_c8_witness :
    (blockHeaders66 envC8 0 msgBH).1.filter isPeerMinBlockEff =
      [Effect.peerMinBlock 0 7 11] := by
  have h := (claim_c8 envC8 0 msgBH 1 [⟨8, 0⟩, ⟨11, 0⟩, ⟨10, 0⟩] rfl rfl
    (by decide) (by decide)).1
  exact h.trans (by decide)

/-- C9: once `SingleHeaderAsSegment` succeeds, `newBlock66` prefetches
the block body and reports the block number as the peer's min block
whether or not a penalty was returned, and returns no error. -/
theorem claim_c9 (env : Env) (s : Nat) (msg : InboundMessage) (hr : Bytes)
    (req : NewBlockPacket) (segs : List ChainSegmentHeader) (pen : HdPenalty)
    (hdl : env.disableBlockDownload = false)
    (h1 : (env.nbStream msg.data).enter1 = .ok ())
    (h2 : (env.nbStream msg.data).enter2 = .ok ())
    (h3 : (env.nbStream msg.data).headerRaw = .ok hr)
    (hdec : env.decodeNewBlockPacket msg.data = .ok req)
    (hs : env.sanityCheck req = .ok ()) (hh : env.hashCheck req = .ok ())
    (hseg : env.hdSingleHeaderAsSegment hr req.block.header = .ok (segs, pen)) :
    Effect.addToPrefetch req.block.header req.block.rawBody ∈ (newBlock66 env s msg).1 ∧
    Effect.peerMinBlock s msg.peerId (req.block.header.number % u64Mod) ∈
      (newBlock66 env s msg).1 ∧
    (newBlock66 env s msg).2 = none := by
  rw [newBlock66_shape hdl h1 h2 h3 hdec hs hh hseg]
  refine ⟨?_, ?_, rfl⟩ <;> simp

/-- Witness for C9: a PENALIZED `NewBlock66` (penalty returned by the
downloader) still has its body prefetched and its number reported. -/
theorem claim_c9_witness :
    Effect.addToPrefetch ⟨42, 0⟩ 77 ∈ (newBlock66 envC9 0 msgNB).1 ∧
    Effect.peerMinBlock 0 7 (42 % u64Mod) ∈ (newBlock66 envC9 0 msgNB).1 ∧
    (newBlock66 envC9 0 msgNB).2 = none :=
  claim_c9 envC9 0 msgNB [9] ⟨⟨⟨42, 0⟩, 77⟩, 0⟩ [⟨⟨42, 0⟩, [9], 55, 42⟩]
    (.other 0) rfl rfl rfl rfl rfl rfl rfl rfl

/-- C10: `HandleInboundMessage` returns the handler's error unchanged;
issuing (or not issuing) the penalty neither consumes nor replaces it, so
the supervisor observes every handler error. -/
theorem claim_c10 (env : Env) (s : Nat) (msg : InboundMessage) :
    (HandleInboundMessage env s msg).2 = (handleInboundMessage env s msg).2 := by
  simp only [HandleInboundMessage]
  cases h : (handleInboundMessage env s msg).2 with
  | none => rfl
  | some e => cases hb : e.invalidRLP <;> simp [hb]

end SentryMulti
